import Mathlib

/-!
Verification of the OpenImmerseTranslate content-script translation pipeline
(content script `part_000`, the alternate content script `content/content.js`,
and the background `service-worker.js`).

The development shallowly embeds the queue / concurrency / completion logic of
the content script as an explicit state machine (`ContentState`, `step`, `run`),
the discovery filters (`elemDecision`, `collectTextNodes`), the identity check
`isSameContent`, the background retry loop `withRetry`, and the response parsing
`parseTranslations` / `buildUserPrompt`.  Machine integers do not occur; DOM
geometry is modelled with `Int` coordinates (the source's `* 0.5` / `* 1.5`
factors are cleared by doubling both sides of the comparisons).
-/

/-! ## String helpers mirroring the JavaScript primitives

All of them are written by structural recursion over the character list of the
string, so that every use is evaluable by kernel reduction. -/

/-- Does `pat` occur as a contiguous sublist of `cs`? -/
def containsSubL (pat : List Char) : List Char → Bool
  | [] => pat.isPrefixOf []
  | c :: rest => pat.isPrefixOf (c :: rest) || containsSubL pat rest

/-- JS `s.includes(pat)`: `true` iff `pat` occurs in `s` (an empty pattern
always matches, as in JS). -/
def hasSub (s pat : String) : Bool :=
  containsSubL pat.data s.data

/-- JS `s.trim()`: strip leading and trailing whitespace. -/
def jsTrim (s : String) : String :=
  String.mk (((s.data.dropWhile Char.isWhitespace).reverse.dropWhile
    Char.isWhitespace).reverse)

/-- Split a character list at every character satisfying `p` (separators are
dropped; adjacent separators yield empty parts, as JS `split` does). -/
def splitPredL (p : Char → Bool) : List Char → List Char → List (List Char)
  | [], acc => [acc.reverse]
  | c :: rest, acc =>
    if p c then acc.reverse :: splitPredL p rest []
    else splitPredL p rest (c :: acc)

/-- Split a character list on a literal (non-empty) separator pattern, with
explicit fuel to keep the recursion structural. -/
def splitOnFuel (pat : List Char) : Nat → List Char → List Char → List (List Char)
  | 0, cs, acc => [acc.reverse ++ cs]
  | _ + 1, [], acc => [acc.reverse]
  | fuel + 1, c :: rest, acc =>
    if pat.isPrefixOf (c :: rest) then
      acc.reverse :: splitOnFuel pat fuel ((c :: rest).drop pat.length) []
    else
      splitOnFuel pat fuel rest (c :: acc)

/-- JS `s.split(pat)` for a literal non-empty separator. -/
def splitOnSub (s pat : String) : List String :=
  (splitOnFuel pat.data (s.data.length + 1) s.data []).map String.mk

/-- Join a list of strings with a separator (JS `parts.join(sep)`). -/
def joinWith (sep : String) : List String → String
  | [] => ""
  | [x] => x
  | x :: y :: rest => x ++ sep ++ joinWith sep (y :: rest)

/-- JS `s.toLowerCase()`, character by character. -/
def jsToLower (s : String) : String :=
  String.mk (s.data.map Char.toLower)

/-- ASCII characters of Unicode categories P (punctuation) and S (symbol):
exactly the printable ASCII characters that are neither alphanumeric nor
space. The source uses `\p{P}\p{S}` over full Unicode; the development only
evaluates the predicate on ASCII text. -/
def isAsciiPunctOrSym (c : Char) : Bool :=
  (0x21 ≤ c.toNat && c.toNat ≤ 0x2F) ||
  (0x3A ≤ c.toNat && c.toNat ≤ 0x40) ||
  (0x5B ≤ c.toNat && c.toNat ≤ 0x60) ||
  (0x7B ≤ c.toNat && c.toNat ≤ 0x7E)

/-- The filter regex `/^[\d\s\p{P}\p{S}]+$/u` of the content script: the
(non-empty) text consists purely of digits, whitespace, punctuation and
symbols. -/
def isPureSymbols (s : String) : Bool :=
  s ≠ "" && s.toList.all (fun c => c.isDigit || c.isWhitespace || isAsciiPunctOrSym c)

/-- JS `s.replace(/\s+/g, ' ').trim().toLowerCase()` from `isSameContent`:
collapse every whitespace run to one space, trim, lowercase.  Splitting on
whitespace, dropping empty parts and re-joining with single spaces produces
exactly the collapsed-and-trimmed string. -/
def normalizeContent (s : String) : String :=
  jsToLower (joinWith " "
    (((splitPredL Char.isWhitespace s.data []).map String.mk).filter
      (fun p => p ≠ "")))

/-- `isSameContent(original, translation)` (part_000 lines 1178-1181). -/
def isSameContent (original translation : String) : Bool :=
  normalizeContent original == normalizeContent translation

/-! ## Configuration constants (part_000 `CONFIG`) -/

/-- `CONFIG.MAX_CONCURRENT` -/
def MAX_CONCURRENT : Int := 6

/-- `CONFIG.MAX_QUEUE_SIZE` -/
def MAX_QUEUE_SIZE : Nat := 100

/-- `CONFIG.MIN_TEXT_LENGTH` -/
def MIN_TEXT_LENGTH : Nat := 2

/-- `CONFIG.MAX_TEXT_LENGTH` -/
def MAX_TEXT_LENGTH : Nat := 5000

/-- `CONFIG.MAX_VIEWPORT_SCAN` -/
def MAX_VIEWPORT_SCAN : Nat := 300

/-! ## The pipeline state (part_000 `TranslationState` plus ghost fields)

Content-tree nodes are identified by a stable `Nat` handle (the arena-and-index
scheme suggested by the spec's design notes).  `inflight` records the blocks
whose `translateSingle` is suspended at the `await sendMessage` point, and
`applied` is a ghost log of `applyTranslation` invocations (one entry per
call).  `wrapped` holds the elements that carry an `.oit-wrapper` /
`.oit-translation` child, `pendingMarks` the `oit-pending` class and
`translatingMarks` the `oit-translating-text` class. -/

/-- A work item as pushed by discovery: node handle plus the text snapshot. -/
structure Block where
  element : Nat
  text : String
deriving DecidableEq, Repr

/-- Mirrors `TranslationState` (booleans stand for "the handle/observer/timer
is non-null"), extended with the ghost fields described above.
`activeTranslations` is an `Int` because the JS counter can be driven below
zero when a `finally` decrement runs after `reset()` zeroed it. -/
structure ContentState where
  isActive : Bool
  shouldStop : Bool
  translatedCount : Nat
  processedTexts : List String
  blockMap : List (Nat × Block)
  translationQueue : List Block
  activeTranslations : Int
  isProcessing : Bool
  observerAttached : Bool
  mutationObserverAttached : Bool
  scrollHandlerAttached : Bool
  scrollTimerSet : Bool
  mutationTimerSet : Bool
  completedElements : List Nat
  pendingMarks : List Nat
  translatingMarks : List Nat
  wrapped : List Nat
  inflight : List Block
  applied : List Nat
deriving DecidableEq, Repr

/-- The freshly constructed `TranslationState` (content script load time). -/
def initialState : ContentState :=
  { isActive := false, shouldStop := false, translatedCount := 0
    processedTexts := [], blockMap := [], translationQueue := []
    activeTranslations := 0, isProcessing := false
    observerAttached := false, mutationObserverAttached := false
    scrollHandlerAttached := false, scrollTimerSet := false
    mutationTimerSet := false, completedElements := []
    pendingMarks := [], translatingMarks := [], wrapped := []
    inflight := [], applied := [] }

/-- `TranslationState.reset` (part_000 lines 80-106): clears flags, counters,
dedup text set, block map, queue and timers, detaches the mutation observer and
scroll handler.  `completedElements` (a `WeakSet`) and the in-flight promises
survive a reset. -/
def ContentState.reset (s : ContentState) : ContentState :=
  { s with isActive := false, shouldStop := false, translatedCount := 0
           processedTexts := [], blockMap := [], translationQueue := []
           activeTranslations := 0, isProcessing := false
           scrollTimerSet := false, mutationTimerSet := false
           mutationObserverAttached := false, scrollHandlerAttached := false }

/-- `stopTranslation` (part_000 lines 747-768): raise `shouldStop`, drop
`isActive`, disconnect the intersection observer, mutation observer and scroll
handler, then `state.reset()`. -/
def stopTranslation (s : ContentState) : ContentState :=
  ContentState.reset
    { s with shouldStop := true, isActive := false
             observerAttached := false, mutationObserverAttached := false
             scrollHandlerAttached := false }

/-- `startTranslation` entry guard and state set-up (part_000 lines 226-239):
no-op while active, otherwise `reset()` then `isActive = true` (the config
value itself is opaque to this model). -/
def startTranslation (s : ContentState) : ContentState :=
  if s.isActive then s else { s.reset with isActive := true }

/-- The state at the beginning of a session, used as the origin of traces. -/
def startSession : ContentState := startTranslation initialState

/-! ## Visual marks (part_000 lines 685-712) -/

/-- `markAsPending`: add class `oit-pending` unless already present (the
dark-background variant class is cosmetic and not modelled). -/
def markAsPending (s : ContentState) (e : Nat) : ContentState :=
  if s.pendingMarks.contains e then s
  else { s with pendingMarks := e :: s.pendingMarks }

/-- `removePendingMark`: remove classes `oit-pending`, `oit-pending-dark`,
`oit-translating-text`. -/
def removePendingMark (s : ContentState) (e : Nat) : ContentState :=
  { s with pendingMarks := s.pendingMarks.filter (fun x => x ≠ e)
           translatingMarks := s.translatingMarks.filter (fun x => x ≠ e) }

/-- `markAsTranslating`: remove `oit-pending`, add `oit-translating-text`. -/
def markAsTranslating (s : ContentState) (e : Nat) : ContentState :=
  { s with pendingMarks := s.pendingMarks.filter (fun x => x ≠ e)
           translatingMarks :=
             if s.translatingMarks.contains e then s.translatingMarks
             else e :: s.translatingMarks }

/-! ## The work queue (part_000 `addToQueue`, lines 276-288) -/

/-- `addToQueue(block)`: no-op when the element is already completed or already
queued; otherwise evict the head when the queue has reached
`MAX_QUEUE_SIZE`, push the block, and mark the element pending. -/
def addToQueue (s : ContentState) (b : Block) : ContentState :=
  if s.completedElements.contains b.element then s
  else if s.translationQueue.any (fun q => q.element == b.element) then s
  else
    let q := if MAX_QUEUE_SIZE ≤ s.translationQueue.length
             then s.translationQueue.drop 1
             else s.translationQueue
    markAsPending { s with translationQueue := q ++ [b] } b.element

/-! ## Backend interaction and `translateSingle` (part_000 lines 294-368) -/

/-- Outcome of the awaited `chrome.runtime.sendMessage` call inside
`translateSingle`: either the promise rejected (`thrown`, the `catch` branch),
or a response object arrived carrying an optional `error` string and a
`translations` array. -/
inductive BackendOutcome where
  | thrown : BackendOutcome
  | response (error : Option String) (translations : List String) : BackendOutcome
deriving DecidableEq, Repr

/-- `WeakSet.add`: idempotent insertion. -/
def insertIfAbsent (l : List Nat) (e : Nat) : List Nat :=
  if l.contains e then l else e :: l

/-- `applyTranslation(block, translation)` (part_000 lines 1066-1133) at the
level of node state: remove the pending/translating marks, then create the
wrapper/translation child unless the element already carries one (both the
append-mode `:scope > .oit-translation` guard and the replace-mode
`parent.classList.contains('oit-wrapper') || parent.querySelector(...)` guard
test the same element handle here, because a block's text node is a direct
child of its element).  The ghost `applied` log records the invocation
itself, before any guard. -/
def applyTranslation (s : ContentState) (b : Block) : ContentState :=
  let s1 := removePendingMark { s with applied := s.applied ++ [b.element] } b.element
  if s1.wrapped.contains b.element then s1
  else { s1 with wrapped := b.element :: s1.wrapped }

/-- The body of `translateSingle` from the first `await` to the end of the
`try`/`catch` (the `finally` decrement is applied by `resolveStep`):
check the active/stop gate, then the error field, then apply or skip, then add
the element to `completedElements`.  A rejection takes the `catch` branch,
which only strips the visual marks. -/
def resolveBody (s : ContentState) (b : Block) (out : BackendOutcome) : ContentState :=
  match out with
  | .thrown => removePendingMark s b.element
  | .response err ts =>
    if !s.isActive || s.shouldStop then s
    else if err.isSome then removePendingMark s b.element
    else
      let t := ts.headD ""
      let s1 :=
        if t ≠ "" && t ≠ b.text && !(isSameContent b.text t) then
          { applyTranslation s b with translatedCount := s.translatedCount + 1 }
        else removePendingMark s b.element
      { s1 with completedElements := insertIfAbsent s1.completedElements b.element }

/-- One iteration of the `processQueue` dispatch loop fused with the
synchronous prefix of `translateSingle`: enabled only while active, not
stopping, the queue is non-empty and a concurrency slot is free
(`activeTranslations < MAX_CONCURRENT`); pops the head, drops it when already
completed, otherwise increments the in-flight counter, marks the element as
translating and suspends the call (recorded in `inflight`). -/
def dispatchStep (s : ContentState) : Option ContentState :=
  if s.isActive && !s.shouldStop && s.activeTranslations < MAX_CONCURRENT then
    match s.translationQueue with
    | [] => none
    | b :: rest =>
      if s.completedElements.contains b.element then
        some { s with translationQueue := rest }
      else
        some (markAsTranslating
          { s with translationQueue := rest
                   activeTranslations := s.activeTranslations + 1
                   inflight := s.inflight ++ [b] } b.element)
  else none

/-- Resumption of the `i`-th suspended `translateSingle`: run `resolveBody`
on its block with the backend outcome, then the `finally` decrement of
`activeTranslations`. -/
def resolveStep (s : ContentState) (i : Nat) (out : BackendOutcome) : Option ContentState :=
  match s.inflight.get? i with
  | none => none
  | some b =>
    let s1 := resolveBody { s with inflight := s.inflight.eraseIdx i } b out
    some { s1 with activeTranslations := s1.activeTranslations - 1 }

/-- Discovery of one candidate block (`scanViewportAndQueue` feeding
`addToQueue`, with the per-element guards of `collectViewportBlocks` /
`collectElementsWithText`): the scan only runs while active and not stopping,
and only yields elements that are not completed, carry no wrapper and no
`oit-pending` class (the `oit-translating-text` class is NOT checked by the
collectors), with a text snapshot that passed the trim/length/purity
filters. -/
def scanStep (s : ContentState) (b : Block) : Option ContentState :=
  if s.isActive && !s.shouldStop
     && !(s.completedElements.contains b.element)
     && !(s.wrapped.contains b.element)
     && !(s.pendingMarks.contains b.element)
     && !(s.translationQueue.any (fun q => q.element == b.element))
     && decide (MIN_TEXT_LENGTH ≤ b.text.length)
     && decide (b.text.length ≤ MAX_TEXT_LENGTH)
     && !(isPureSymbols b.text)
  then some (addToQueue s b)
  else none

/-- An event of the session: a discovery hit, a dispatch-loop iteration, the
resumption of an in-flight translation, or a stop request. -/
inductive SessionAction where
  | scan (b : Block) : SessionAction
  | dispatch : SessionAction
  | resolve (i : Nat) (out : BackendOutcome) : SessionAction
  | stop : SessionAction
deriving DecidableEq, Repr

/-- Small-step semantics of the pipeline: `none` when the action's guard is
not enabled in `s`. -/
def step (s : ContentState) : SessionAction → Option ContentState
  | .scan b => scanStep s b
  | .dispatch => dispatchStep s
  | .resolve i out => resolveStep s i out
  | .stop => some (stopTranslation s)

/-- Run a list of actions from a state; fails when some guard is disabled. -/
def run (s : ContentState) : List SessionAction → Option ContentState
  | [] => some s
  | a :: rest =>
    match step s a with
    | none => none
    | some s1 => run s1 rest

/-! ## Discovery: viewport sweep (part_000 lines 525-624)

An `Elem` is the snapshot of one DOM element as the sweep reads it: geometry
from `getBoundingClientRect()`, the dedup-relevant class/ancestor facts, the
full `textContent`, and the contents of its direct text-node children. -/

structure Elem where
  element : Nat
  top : Int
  bottom : Int
  width : Nat
  height : Nat
  inWrapper : Bool
  hasPendingClass : Bool
  inTranslation : Bool
  completed : Bool
  textContent : String
  childTexts : List String
deriving DecidableEq, Repr

/-- A candidate produced by the viewport sweep: the element, the text that
will be sent for translation, and whether append-mode rendering was chosen. -/
structure VBlock where
  el : Elem
  text : String
  isAppend : Bool
deriving DecidableEq, Repr

/-- `getDirectTextContent(element)` (part_000 lines 934-944): concatenate the
direct text-node children and trim. -/
def getDirectTextContent (childTexts : List String) : String :=
  jsTrim (joinWith "" childTexts)

/-- `findTextNode(element, targetText)` (part_000 lines 949-959) viewed as a
search success test: some direct text child either trims to the target or
contains its first 20 characters. -/
def findTextNodeExists (childTexts : List String) (targetText : String) : Bool :=
  childTexts.any (fun c =>
    jsTrim c == targetText || hasSub c (String.mk (targetText.data.take 20)))

/-- The per-element body of `collectElementsWithText` (part_000 lines
582-624), with `H` the viewport height (geometry comparisons doubled to clear
the `0.5`/`1.5` factors) and `langSkip` standing for
`state.config?.autoDetect && isTargetLanguage(text)`.  Returns the pushed
block and the updated `seenInThisScan` set, or `none` when the element is
filtered out. -/
def elemDecision (H : Int) (langSkip : String → Bool) (seen : List String)
    (el : Elem) : Option (VBlock × List String) :=
  if el.bottom * 2 < -H || el.top * 2 > 3 * H then none
  else if el.width = 0 || el.height = 0 then none
  else if el.inWrapper || el.hasPendingClass then none
  else if el.inTranslation then none
  else if el.completed then none
  else
    let text := jsTrim el.textContent
    if text = "" || text.length < MIN_TEXT_LENGTH then none
    else if text.length > MAX_TEXT_LENGTH then none
    else if seen.contains text then none
    else if isPureSymbols text then none
    else if langSkip text then none
    else
      let directText := getDirectTextContent el.childTexts
      let hasDirectText := directText ≠ "" && MIN_TEXT_LENGTH ≤ directText.length
      if hasDirectText then
        if findTextNodeExists el.childTexts directText then
          some (⟨el, directText, false⟩, seen ++ [text])
        else none
      else if MIN_TEXT_LENGTH ≤ text.length then
        some (⟨el, text, true⟩, seen ++ [text])
      else none

/-- The `collectElementsWithText` loop: fold `elemDecision` over the selected
elements, appending to the `blocks` array, stopping once
`MAX_VIEWPORT_SCAN` blocks have accumulated. -/
def collectElementsWithText (H : Int) (langSkip : String → Bool) :
    List Elem → List VBlock → List String → List VBlock × List String
  | [], blocks, seen => (blocks, seen)
  | el :: rest, blocks, seen =>
    if MAX_VIEWPORT_SCAN ≤ blocks.length then (blocks, seen)
    else
      match elemDecision H langSkip seen el with
      | none => collectElementsWithText H langSkip rest blocks seen
      | some (vb, seen1) => collectElementsWithText H langSkip rest (blocks ++ [vb]) seen1

/-- Insert a block into a list sorted by ascending `el.top`. -/
def insertByTop (b : VBlock) : List VBlock → List VBlock
  | [] => [b]
  | c :: rest => if b.el.top ≤ c.el.top then b :: c :: rest else c :: insertByTop b rest

/-- The final `blocks.sort((a, b) => aRect.top - bRect.top)` of
`collectViewportBlocks` (part_000 lines 570-574 and content.js lines 286-291):
sort the gathered blocks by ascending top coordinate. -/
def sortByTop : List VBlock → List VBlock
  | [] => []
  | b :: rest => insertByTop b (sortByTop rest)

/-- `collectViewportBlocks` (part_000 lines 525-577): the tweet pass and the
leaf-text pass contribute the `prefixBlocks`/`seen` accumulator, the
primary- and secondary-selector passes run `collectElementsWithText` over
`els`, and the gathered array is sorted by top coordinate before being
returned. -/
def collectViewportBlocks (H : Int) (langSkip : String → Bool)
    (prefixBlocks : List VBlock) (seen : List String) (els : List Elem) :
    List VBlock :=
  sortByTop (collectElementsWithText H langSkip els prefixBlocks seen).1

/-! ## Discovery: full-page scan (part_000 `collectTextNodes`, lines 795-858)

A `TNode` is the snapshot of one text node met by the tree walker: its
`textContent` and the facts about its parent element that the filter reads.
The fresh per-call `processedNodes` WeakSet never rejects anything inside a
single traversal (the walker visits each node once), so it is not modelled. -/

structure TNode where
  element : Nat
  hasParent : Bool
  parentVisible : Bool
  skipTag : Bool
  skipClass : Bool
  inWrapper : Bool
  content : String
deriving DecidableEq, Repr

/-- The `acceptNode` filter of `collectTextNodes`: parent exists, is visible,
not a skip tag/class, not inside a wrapper; trimmed text within the length
bounds, not purely digits/punctuation/whitespace, and not URL-like
(`urlLike` stands for the bare URL/email regex). -/
def tnodeAccept (urlLike : String → Bool) (n : TNode) : Bool :=
  n.hasParent && n.parentVisible && !n.skipTag && !n.skipClass && !n.inWrapper &&
  (let text := jsTrim n.content
   decide (MIN_TEXT_LENGTH ≤ text.length) && decide (text.length ≤ MAX_TEXT_LENGTH)
     && !(isPureSymbols text) && !(urlLike text))

/-- The walker loop of `collectTextNodes`: for each accepted node, skip texts
already in `state.processedTexts` and already-target-language texts, else
record the text and push a block for the parent element. -/
def collectTextNodes (urlLike langSkip : String → Bool) :
    List TNode → List Block → List String → List Block × List String
  | [], blocks, seenTexts => (blocks, seenTexts)
  | n :: rest, blocks, seenTexts =>
    if tnodeAccept urlLike n then
      let text := jsTrim n.content
      if seenTexts.contains text then
        collectTextNodes urlLike langSkip rest blocks seenTexts
      else if langSkip text then
        collectTextNodes urlLike langSkip rest blocks seenTexts
      else
        collectTextNodes urlLike langSkip rest
          (blocks ++ [⟨n.element, text⟩]) (seenTexts ++ [text])
    else
      collectTextNodes urlLike langSkip rest blocks seenTexts

/-! ## Background service worker (service-worker.js) -/

/-- The rate-limit test of `withRetry` (service-worker.js lines 58-64):
the error message contains one of the four rate-limit markers. -/
def isRateLimitError (msg : String) : Bool :=
  hasSub msg "concurrency" || hasSub msg "rate limit" ||
  hasSub msg "too many requests" || hasSub msg "429"

/-- Observable behaviour of one `withRetry` execution: the final result, the
number of times `fn` was invoked, and the backoff delays slept (in order). -/
structure RetryTrace (α : Type) where
  result : Except String α
  calls : Nat
  delays : List Nat
deriving Repr

instance {ε α : Type} [DecidableEq ε] [DecidableEq α] : DecidableEq (Except ε α) := by
  intro a b
  cases a with
  | ok x =>
    cases b with
    | ok y => exact decidable_of_iff (x = y) (by simp)
    | error y => exact Decidable.isFalse (by simp)
  | error x =>
    cases b with
    | ok y => exact Decidable.isFalse (by simp)
    | error y => exact decidable_of_iff (x = y) (by simp)

instance [DecidableEq α] : DecidableEq (RetryTrace α) := by
  intro a b
  cases a with | mk r1 c1 d1 =>
  cases b with | mk r2 c2 d2 =>
  exact decidable_of_iff (r1 = r2 ∧ c1 = c2 ∧ d1 = d2) (by rw [RetryTrace.mk.injEq])

/-- The attempt loop of `withRetry` (service-worker.js lines 49-82), with
`fuel` the number of attempts still available (initially `maxRetries`) and
`oracle i` the outcome of the `i`-th invocation of `fn`.  A rate-limited
failure with attempts remaining sleeps `baseDelay * 2 ^ attempt` and retries;
any other failure is rethrown at once; a rate-limited failure on the last
attempt falls out of the loop and rethrows the recorded `lastError`, which is
that same error. -/
def withRetryGo (oracle : Nat → Except String Unit) (baseDelay : Nat) :
    Nat → Nat → List Nat → RetryTrace Unit
  | 0, attempt, delays => ⟨.error "", attempt, delays⟩
  | 1, attempt, delays =>
    match oracle attempt with
    | .ok v => ⟨.ok v, attempt + 1, delays⟩
    | .error e => ⟨.error e, attempt + 1, delays⟩
  | fuel + 2, attempt, delays =>
    match oracle attempt with
    | .ok v => ⟨.ok v, attempt + 1, delays⟩
    | .error e =>
      if isRateLimitError e then
        withRetryGo oracle baseDelay (fuel + 1) (attempt + 1)
          (delays ++ [baseDelay * 2 ^ attempt])
      else ⟨.error e, attempt + 1, delays⟩

/-- `withRetry(fn, maxRetries, baseDelay)`; the call sites use the defaults
`maxRetries = 3`, `baseDelay = 2000`. -/
def withRetry (oracle : Nat → Except String Unit) (maxRetries baseDelay : Nat) :
    RetryTrace Unit :=
  withRetryGo oracle baseDelay maxRetries 0 []

/-- `parseTranslations(content)` (service-worker.js lines 248-251): split the
model output on the `[SEP]` separator, trim each part, drop empty parts.
(The source splits on `/\s*\[SEP\]\s*/`; since every part is trimmed
afterwards, splitting on the literal separator and trimming is the same
function.) -/
def parseTranslations (content : String) : List String :=
  ((splitOnSub content "[SEP]").map jsTrim).filter (fun p => p.length > 0)

/-- `buildUserPrompt(texts, config)` (service-worker.js lines 183-185):
`texts.join(' [SEP] ')`. -/
def buildUserPrompt (texts : List String) : String :=
  joinWith " [SEP] " texts

/-! ## Helper lemmas -/

theorem markAsPending_queue (s : ContentState) (e : Nat) :
    (markAsPending s e).translationQueue = s.translationQueue := by
  unfold markAsPending; split <;> rfl

theorem markAsPending_active (s : ContentState) (e : Nat) :
    (markAsPending s e).activeTranslations = s.activeTranslations := by
  unfold markAsPending; split <;> rfl

theorem addToQueue_active (s : ContentState) (b : Block) :
    (addToQueue s b).activeTranslations = s.activeTranslations := by
  unfold addToQueue
  split
  · rfl
  · split
    · rfl
    · rw [markAsPending_active]

theorem addToQueue_len (s : ContentState) (b : Block)
    (h : s.translationQueue.length ≤ MAX_QUEUE_SIZE) :
    (addToQueue s b).translationQueue.length ≤ MAX_QUEUE_SIZE := by
  unfold addToQueue
  split
  · exact h
  · split
    · exact h
    · rw [markAsPending_queue]
      simp only [List.length_append, List.length_singleton, MAX_QUEUE_SIZE] at *
      split
      · simp only [List.length_drop]
        omega
      · omega

theorem removePendingMark_queue (s : ContentState) (e : Nat) :
    (removePendingMark s e).translationQueue = s.translationQueue := rfl

theorem removePendingMark_active (s : ContentState) (e : Nat) :
    (removePendingMark s e).activeTranslations = s.activeTranslations := rfl

theorem applyTranslation_queue (s : ContentState) (b : Block) :
    (applyTranslation s b).translationQueue = s.translationQueue := by
  simp only [applyTranslation, removePendingMark]
  split <;> rfl

theorem applyTranslation_active (s : ContentState) (b : Block) :
    (applyTranslation s b).activeTranslations = s.activeTranslations := by
  simp only [applyTranslation, removePendingMark]
  split <;> rfl

theorem resolveBody_queue (s : ContentState) (b : Block) (out : BackendOutcome) :
    (resolveBody s b out).translationQueue = s.translationQueue := by
  simp only [resolveBody]
  split
  · rfl
  · split
    · rfl
    · split
      · rfl
      · split
        · exact applyTranslation_queue s b
        · rfl

theorem resolveBody_active (s : ContentState) (b : Block) (out : BackendOutcome) :
    (resolveBody s b out).activeTranslations = s.activeTranslations := by
  simp only [resolveBody]
  split
  · rfl
  · split
    · rfl
    · split
      · rfl
      · split
        · exact applyTranslation_active s b
        · rfl

theorem run_preserve {P : ContentState → Prop}
    (hstep : ∀ s a s1, step s a = some s1 → P s → P s1) :
    ∀ (acts : List SessionAction) (s0 s1 : ContentState),
      run s0 acts = some s1 → P s0 → P s1 := by
  intro acts
  induction acts with
  | nil =>
    intro s0 s1 h hp
    simp only [run, Option.some.injEq] at h
    exact h ▸ hp
  | cons a rest ih =>
    intro s0 s1 h hp
    unfold run at h
    cases hs : step s0 a with
    | none => rw [hs] at h; exact Option.noConfusion h
    | some s2 =>
      rw [hs] at h
      exact ih s2 s1 h (hstep s0 a s2 hs hp)

theorem step_active_le (s : ContentState) (a : SessionAction) (s1 : ContentState)
    (h : step s a = some s1) (hs : s.activeTranslations ≤ MAX_CONCURRENT) :
    s1.activeTranslations ≤ MAX_CONCURRENT := by
  cases a with
  | scan b =>
    simp only [step, scanStep] at h
    split at h
    · cases h
      rw [addToQueue_active]
      exact hs
    · exact Option.noConfusion h
  | dispatch =>
    simp only [step, dispatchStep] at h
    split at h
    case isTrue hguard =>
      split at h
      · exact Option.noConfusion h
      · split at h
        · cases h
          exact hs
        · cases h
          simp only [markAsTranslating]
          simp only [Bool.and_eq_true, decide_eq_true_eq] at hguard
          omega
    case isFalse => exact Option.noConfusion h
  | resolve i out =>
    simp only [step, resolveStep] at h
    split at h
    · exact Option.noConfusion h
    · cases h
      rw [resolveBody_active]
      simp only []
      omega
  | stop =>
    simp only [step] at h
    cases h
    simp only [stopTranslation, ContentState.reset, MAX_CONCURRENT]
    omega

theorem step_queue_le (s : ContentState) (a : SessionAction) (s1 : ContentState)
    (h : step s a = some s1) (hs : s.translationQueue.length ≤ MAX_QUEUE_SIZE) :
    s1.translationQueue.length ≤ MAX_QUEUE_SIZE := by
  cases a with
  | scan b =>
    simp only [step, scanStep] at h
    split at h
    · cases h
      exact addToQueue_len s b hs
    · exact Option.noConfusion h
  | dispatch =>
    simp only [step, dispatchStep] at h
    split at h
    case isTrue hguard =>
      split at h
      · exact Option.noConfusion h
      case h_2 b rest heq =>
        split at h
        · cases h
          simp only []
          rw [heq] at hs
          simp only [List.length_cons] at hs
          omega
        · cases h
          simp only [markAsTranslating]
          rw [heq] at hs
          simp only [List.length_cons] at hs
          omega
    case isFalse => exact Option.noConfusion h
  | resolve i out =>
    simp only [step, resolveStep] at h
    split at h
    · exact Option.noConfusion h
    · cases h
      simp only []
      rw [resolveBody_queue]
      exact hs
  | stop =>
    simp only [step] at h
    cases h
    simp only [stopTranslation, ContentState.reset, List.length_nil, MAX_QUEUE_SIZE]
    omega

/-- C2: at no instant does the number of in-flight translation calls
(`activeTranslations`) exceed the configured maximum of 6: starting from a
fresh session, every state reachable by discovery, dispatch-loop iterations,
translation resumptions and stop requests keeps `activeTranslations` at or
below `MAX_CONCURRENT`, because the dispatch loop pops the head and starts a
translate-and-apply call only after the guard `activeTranslations <
MAX_CONCURRENT` holds. -/
theorem concurrency_bound (acts : List SessionAction) (s1 : ContentState)
    (h : run startSession acts = some s1) :
    s1.activeTranslations ≤ MAX_CONCURRENT :=
  run_preserve step_active_le acts startSession s1 h (by decide)

/-- Witness for `concurrency_bound` at the empty trace. -/
theorem concurrency_bound_witness :
    startSession.activeTranslations ≤ MAX_CONCURRENT :=
  concurrency_bound [] startSession rfl

/-- C3: the work queue never exceeds its capacity of `MAX_QUEUE_SIZE = 100`
entries in any reachable session state; `addToQueue` is a no-op when the node
is already completed or already present in the queue; and an enqueue at
capacity evicts the oldest entry (the head) before pushing the new block. -/
theorem bounded_queue (acts : List SessionAction) (s1 : ContentState)
    (h : run startSession acts = some s1) :
    s1.translationQueue.length ≤ MAX_QUEUE_SIZE
    ∧ (∀ (s : ContentState) (b : Block),
        (s.completedElements.contains b.element = true
          ∨ s.translationQueue.any (fun q => q.element == b.element) = true) →
        addToQueue s b = s)
    ∧ (∀ (s : ContentState) (b : Block),
        s.translationQueue.length = MAX_QUEUE_SIZE →
        s.completedElements.contains b.element = false →
        s.translationQueue.any (fun q => q.element == b.element) = false →
        (addToQueue s b).translationQueue = s.translationQueue.drop 1 ++ [b]) := by
  refine ⟨run_preserve step_queue_le acts startSession s1 h (by decide), ?_, ?_⟩
  · intro s b hmem
    unfold addToQueue
    rcases hmem with hc | hq
    · rw [hc]
      rfl
    · rw [hq]
      split
      · rfl
      · rfl
  · intro s b hlen hc hq
    unfold addToQueue
    rw [hc, hq]
    simp only [Bool.false_eq_true, if_false]
    rw [markAsPending_queue]
    rw [if_pos (le_of_eq hlen.symm)]

/-- Witness for `bounded_queue`: the empty trace, a state whose element is
already completed (no-op), and a full queue evicting its head. -/
theorem bounded_queue_witness :
    startSession.translationQueue.length ≤ MAX_QUEUE_SIZE
    ∧ addToQueue { startSession with completedElements := [7] } ⟨7, "Hi"⟩
        = { startSession with completedElements := [7] }
    ∧ (addToQueue
        { startSession with
            translationQueue := (List.range MAX_QUEUE_SIZE).map (fun i => ⟨i, "t"⟩) }
        ⟨500, "new"⟩).translationQueue
      = ((List.range MAX_QUEUE_SIZE).map (fun i => (⟨i, "t"⟩ : Block))).drop 1
          ++ [⟨500, "new"⟩] := by
  obtain ⟨h1, h2, h3⟩ := bounded_queue [] startSession rfl
  refine ⟨h1, h2 _ _ (Or.inl (by decide)), h3 _ _ (by decide) (by decide) (by decide)⟩

/-- C7: `stopTranslation` is idempotent — running it twice from any state
yields the same end state as running it once; every post-stop state has an
empty queue, detached observers, scroll listener and timers, and
`isActive = false`; and stopping from the idle initial state is a no-op. -/
theorem stop_idempotent :
    (∀ s : ContentState, stopTranslation (stopTranslation s) = stopTranslation s)
    ∧ (∀ s : ContentState,
        (stopTranslation s).translationQueue = []
        ∧ (stopTranslation s).isActive = false
        ∧ (stopTranslation s).observerAttached = false
        ∧ (stopTranslation s).mutationObserverAttached = false
        ∧ (stopTranslation s).scrollHandlerAttached = false
        ∧ (stopTranslation s).scrollTimerSet = false
        ∧ (stopTranslation s).mutationTimerSet = false)
    ∧ stopTranslation initialState = initialState :=
  ⟨fun _ => rfl, fun _ => ⟨rfl, rfl, rfl, rfl, rfl, rfl, rfl⟩, rfl⟩

/-- C10: the translations array returned by the translate handler is not
guaranteed to align with the input texts: two texts are joined with the
`[SEP]` separator into one prompt, and the model reply is split on `[SEP]`
with empty parts filtered out, so a reply whose second segment is blank
yields one translation for two source texts. -/
theorem translations_length_mismatch :
    buildUserPrompt ["Hello", "World"] = "Hello [SEP] World"
    ∧ parseTranslations "Bonjour [SEP] " = ["Bonjour"]
    ∧ (parseTranslations "Bonjour [SEP] ").length
        < (["Hello", "World"] : List String).length :=
  ⟨by decide, by decide, by decide⟩

theorem mem_insertByTop (b x : VBlock) (l : List VBlock)
    (h : x ∈ insertByTop b l) : x = b ∨ x ∈ l := by
  induction l with
  | nil =>
    simp only [insertByTop, List.mem_singleton] at h
    exact Or.inl h
  | cons c rest ih =>
    simp only [insertByTop] at h
    split at h
    · rcases List.mem_cons.mp h with h1 | h2
      · exact Or.inl h1
      · exact Or.inr h2
    · rcases List.mem_cons.mp h with h1 | h2
      · exact Or.inr (h1 ▸ List.mem_cons_self c rest)
      · rcases ih h2 with h3 | h4
        · exact Or.inl h3
        · exact Or.inr (List.mem_cons_of_mem c h4)

theorem insertByTop_pairwise (b : VBlock) (l : List VBlock)
    (h : l.Pairwise (fun a c => a.el.top ≤ c.el.top)) :
    (insertByTop b l).Pairwise (fun a c => a.el.top ≤ c.el.top) := by
  induction l with
  | nil => simp [insertByTop]
  | cons c rest ih =>
    rcases List.pairwise_cons.mp h with ⟨hc, hrest⟩
    simp only [insertByTop]
    split
    case isTrue hbc =>
      refine List.pairwise_cons.mpr ⟨?_, h⟩
      intro x hx
      rcases List.mem_cons.mp hx with h1 | h2
      · exact h1 ▸ hbc
      · exact le_trans hbc (hc x h2)
    case isFalse hbc =>
      refine List.pairwise_cons.mpr ⟨?_, ih hrest⟩
      intro x hx
      rcases mem_insertByTop b x rest hx with h1 | h2
      · exact h1 ▸ le_of_not_le hbc
      · exact hc x h2

theorem sortByTop_pairwise (l : List VBlock) :
    (sortByTop l).Pairwise (fun a c => a.el.top ≤ c.el.top) := by
  induction l with
  | nil => simp [sortByTop]
  | cons b rest ih => exact insertByTop_pairwise b (sortByTop rest) ih

/-- C8: within one discovery sweep, the candidate list returned by
`collectViewportBlocks` is sorted in ascending order of each block's top
coordinate, for any viewport height, language filter, blocks contributed by
the other passes and list of swept elements. -/
theorem viewport_blocks_sorted (H : Int) (langSkip : String → Bool)
    (prefixBlocks : List VBlock) (seen : List String) (els : List Elem) :
    (collectViewportBlocks H langSkip prefixBlocks seen els).Pairwise
      (fun a c => a.el.top ≤ c.el.top) :=
  sortByTop_pairwise (collectElementsWithText H langSkip els prefixBlocks seen).1

theorem contains_filter_ne (l : List Nat) (e : Nat) :
    (l.filter (fun x => x ≠ e)).contains e = false := by
  simp [List.contains]

theorem contains_insertIfAbsent (l : List Nat) (e : Nat) :
    (insertIfAbsent l e).contains e = true := by
  unfold insertIfAbsent
  split
  case isTrue h => exact h
  case isFalse h => simp [List.contains]

/-- C4: when the backend's returned translation is empty, equal to the source
string, or identical to the source after whitespace collapsing, trimming and
lowercasing, `translateSingle` takes the skip branch: the node is marked
finished (added to `completedElements`) with no tree mutation — no wrapper is
created, `applyTranslation` is not invoked — and the pending/translating
marks are removed. -/
theorem skip_on_identity (s : ContentState) (b : Block) (ts : List String)
    (hact : s.isActive = true) (hstop : s.shouldStop = false)
    (hskip : ts.headD "" = "" ∨ ts.headD "" = b.text
      ∨ isSameContent b.text (ts.headD "") = true) :
    (resolveBody s b (.response none ts)).wrapped = s.wrapped
    ∧ (resolveBody s b (.response none ts)).applied = s.applied
    ∧ (resolveBody s b (.response none ts)).completedElements.contains b.element = true
    ∧ (resolveBody s b (.response none ts)).pendingMarks.contains b.element = false
    ∧ (resolveBody s b (.response none ts)).translatingMarks.contains b.element = false := by
  have hcond : (decide (ts.headD "" ≠ "") && decide (ts.headD "" ≠ b.text)
      && !isSameContent b.text (ts.headD "")) = false := by
    rcases hskip with h | h | h
    · rw [h]
      simp
    · rw [h]
      simp
    · rw [h]
      simp
  simp only [resolveBody, hact, hstop, Bool.not_true, Bool.or_false, if_false,
    Option.isSome_none, hcond]
  exact ⟨rfl, rfl, contains_insertIfAbsent _ _, contains_filter_ne _ _,
    contains_filter_ne _ _⟩

/-- Witness for `skip_on_identity`: translating `"OK"` with a backend that
returns `"OK"` marks the block finished without any wrapper creation. -/
theorem skip_on_identity_witness :
    (resolveBody startSession ⟨0, "OK"⟩ (.response none ["OK"])).wrapped
        = startSession.wrapped
    ∧ (resolveBody startSession ⟨0, "OK"⟩ (.response none ["OK"])).applied
        = startSession.applied
    ∧ (resolveBody startSession ⟨0, "OK"⟩
        (.response none ["OK"])).completedElements.contains 0 = true
    ∧ (resolveBody startSession ⟨0, "OK"⟩
        (.response none ["OK"])).pendingMarks.contains 0 = false
    ∧ (resolveBody startSession ⟨0, "OK"⟩
        (.response none ["OK"])).translatingMarks.contains 0 = false :=
  skip_on_identity startSession ⟨0, "OK"⟩ ["OK"] rfl rfl (Or.inr (Or.inl rfl))


theorem applyTranslation_pendingMarks (s : ContentState) (b : Block) :
    (applyTranslation s b).pendingMarks
      = s.pendingMarks.filter (fun x => x ≠ b.element) := by
  simp only [applyTranslation, removePendingMark]
  split <;> rfl

theorem applyTranslation_translatingMarks (s : ContentState) (b : Block) :
    (applyTranslation s b).translatingMarks
      = s.translatingMarks.filter (fun x => x ≠ b.element) := by
  simp only [applyTranslation, removePendingMark]
  split <;> rfl

theorem applyTranslation_completed (s : ContentState) (b : Block) :
    (applyTranslation s b).completedElements = s.completedElements := by
  simp only [applyTranslation, removePendingMark]
  split <;> rfl

theorem resolveBody_thrown (s : ContentState) (b : Block) :
    resolveBody s b .thrown = removePendingMark s b.element := rfl

theorem resolveBody_error (s : ContentState) (b : Block) (msg : String)
    (ts : List String) (hact : s.isActive = true) (hstop : s.shouldStop = false) :
    resolveBody s b (.response (some msg) ts) = removePendingMark s b.element := by
  simp only [resolveBody, hact, hstop, Bool.not_true, Bool.or_false,
    Bool.false_eq_true, if_false, Option.isSome_some, eq_self_iff_true, if_true]

theorem resolveBody_ok_apply (s : ContentState) (b : Block) (ts : List String)
    (hact : s.isActive = true) (hstop : s.shouldStop = false)
    (hcond : (decide (ts.headD "" ≠ "") && decide (ts.headD "" ≠ b.text)
      && !isSameContent b.text (ts.headD "")) = true) :
    resolveBody s b (.response none ts)
      = { { applyTranslation s b with translatedCount := s.translatedCount + 1 } with
          completedElements :=
            insertIfAbsent (applyTranslation s b).completedElements b.element } := by
  simp only [resolveBody, hact, hstop, Bool.not_true, Bool.or_false,
    Bool.false_eq_true, if_false, Option.isSome_none, hcond, eq_self_iff_true,
    if_true]

theorem resolveBody_ok_skip (s : ContentState) (b : Block) (ts : List String)
    (hact : s.isActive = true) (hstop : s.shouldStop = false)
    (hcond : (decide (ts.headD "" ≠ "") && decide (ts.headD "" ≠ b.text)
      && !isSameContent b.text (ts.headD "")) = false) :
    resolveBody s b (.response none ts)
      = { removePendingMark s b.element with
          completedElements :=
            insertIfAbsent (removePendingMark s b.element).completedElements
              b.element } := by
  simp only [resolveBody, hact, hstop, Bool.not_true, Bool.or_false,
    Bool.false_eq_true, if_false, Option.isSome_none, hcond]

/-- C6 (counterexample): the claim that every finished translation attempt
adds the node to the completed set (marks it done) regardless of outcome is
false — an attempt that finishes with an error response returns before
`state.completedElements.add`, leaving the node outside the completed set. -/
theorem always_done_counterexample :
    ¬ (∀ (s : ContentState) (b : Block) (out : BackendOutcome),
        s.isActive = true → s.shouldStop = false →
        (resolveBody s b out).completedElements.contains b.element = true) := by
  intro h
  exact absurd
    (h startSession ⟨0, "Hello"⟩ (.response (some "API error") []) rfl rfl)
    (by decide)

/-- C6 (amended): whatever the outcome of a finished translation attempt —
success, skip, error response or thrown exception — the pending/translating
marker classes of the node are removed; but the node is added to the
completed set only when the response carries no error: after a thrown
exception or an error response the completed set is unchanged, so the node
can be rediscovered and retried. -/
theorem outcome_marks_completion (s : ContentState) (b : Block)
    (out : BackendOutcome)
    (hact : s.isActive = true) (hstop : s.shouldStop = false) :
    ((resolveBody s b out).pendingMarks.contains b.element = false
      ∧ (resolveBody s b out).translatingMarks.contains b.element = false)
    ∧ (out = .thrown →
        (resolveBody s b out).completedElements = s.completedElements)
    ∧ (∀ msg ts, out = .response (some msg) ts →
        (resolveBody s b out).completedElements = s.completedElements)
    ∧ (∀ ts, out = .response none ts →
        (resolveBody s b out).completedElements.contains b.element = true) := by
  cases out with
  | thrown =>
    rw [resolveBody_thrown]
    refine ⟨⟨contains_filter_ne _ _, contains_filter_ne _ _⟩, fun _ => rfl, ?_, ?_⟩
    · intro msg ts hout
      exact BackendOutcome.noConfusion hout
    · intro ts hout
      exact BackendOutcome.noConfusion hout
  | response err ts =>
    cases err with
    | some msg =>
      rw [resolveBody_error s b msg ts hact hstop]
      refine ⟨⟨contains_filter_ne _ _, contains_filter_ne _ _⟩, ?_, ?_, ?_⟩
      · intro hout
        exact BackendOutcome.noConfusion hout
      · intro msg1 ts1 hout
        rfl
      · intro ts1 hout
        injection hout with h1 h2
        exact Option.noConfusion h1
    | none =>
      by_cases hcond : (decide (ts.headD "" ≠ "") && decide (ts.headD "" ≠ b.text)
          && !isSameContent b.text (ts.headD "")) = true
      · rw [resolveBody_ok_apply s b ts hact hstop hcond]
        refine ⟨⟨?_, ?_⟩, ?_, ?_, ?_⟩
        · show ((applyTranslation s b).pendingMarks).contains b.element = false
          rw [applyTranslation_pendingMarks]
          exact contains_filter_ne _ _
        · show ((applyTranslation s b).translatingMarks).contains b.element = false
          rw [applyTranslation_translatingMarks]
          exact contains_filter_ne _ _
        · intro hout
          exact BackendOutcome.noConfusion hout
        · intro msg1 ts1 hout
          injection hout with h1 h2
          exact Option.noConfusion h1
        · intro ts1 hout
          exact contains_insertIfAbsent _ _
      · rw [resolveBody_ok_skip s b ts hact hstop (Bool.not_eq_true _ ▸ hcond)]
        refine ⟨⟨contains_filter_ne _ _, contains_filter_ne _ _⟩, ?_, ?_, ?_⟩
        · intro hout
          exact BackendOutcome.noConfusion hout
        · intro msg1 ts1 hout
          injection hout with h1 h2
          exact Option.noConfusion h1
        · intro ts1 hout
          exact contains_insertIfAbsent _ _

/-- Witness for `outcome_marks_completion` at a successful response. -/
theorem outcome_marks_completion_witness :
    (((resolveBody startSession ⟨0, "Hello"⟩
        (.response none ["Bonjour"])).pendingMarks.contains 0 = false
      ∧ (resolveBody startSession ⟨0, "Hello"⟩
        (.response none ["Bonjour"])).translatingMarks.contains 0 = false)
    ∧ ((.response none ["Bonjour"] : BackendOutcome) = .thrown →
        (resolveBody startSession ⟨0, "Hello"⟩
          (.response none ["Bonjour"])).completedElements
          = startSession.completedElements)
    ∧ (∀ msg ts, (.response none ["Bonjour"] : BackendOutcome)
          = .response (some msg) ts →
        (resolveBody startSession ⟨0, "Hello"⟩
          (.response none ["Bonjour"])).completedElements
          = startSession.completedElements)
    ∧ (∀ ts, (.response none ["Bonjour"] : BackendOutcome) = .response none ts →
        (resolveBody startSession ⟨0, "Hello"⟩
          (.response none ["Bonjour"])).completedElements.contains 0 = true)) :=
  outcome_marks_completion startSession ⟨0, "Hello"⟩
    (.response none ["Bonjour"]) rfl rfl

/-- The work item used in the C1 counterexample trace. -/
def dupBlock : Block := ⟨0, "Hello"⟩

/-- The interleaving refuting C1: the node is discovered and dispatched,
re-discovered by a later sweep while its first translation is still in flight
(nothing blocks this: completion is only recorded after the response arrives,
the `oit-pending` class was already swapped for `oit-translating-text`, and
the collectors only test `oit-pending`), dispatched again, and both in-flight
calls then resolve — invoking `applyTranslation` twice for the same node. -/
def dupTrace : List SessionAction :=
  [ .scan dupBlock, .dispatch, .scan dupBlock, .dispatch,
    .resolve 0 (.response none ["Bonjour"]),
    .resolve 0 (.response none ["Bonjour"]) ]

/-- C1 (counterexample): the claim that `applyTranslation` is invoked at most
once per node across a session is false — the `dupTrace` interleaving drives
the apply count of node `0` to `2`. -/
theorem apply_once_counterexample :
    ¬ (∀ (acts : List SessionAction) (s1 : ContentState),
        run startSession acts = some s1 → ∀ e, s1.applied.count e ≤ 1) := by
  intro h
  have hmap : (run startSession dupTrace).map (fun s => s.applied.count 0)
      = some 2 := by decide
  cases hrun : run startSession dupTrace with
  | none =>
    rw [hrun] at hmap
    exact Option.noConfusion hmap
  | some s1 =>
    have h1 := h dupTrace s1 hrun 0
    rw [hrun, Option.map_some'] at hmap
    have h2 : s1.applied.count 0 = 2 := Option.some.inj hmap
    omega

/-- C1 (amended): once a node is in the completed set it is never re-enqueued
— the discovery sweep refuses it and `addToQueue` is a no-op — for as long as
the completed set survives, i.e. until a full session reset; but
`applyTranslation` itself may be invoked more than once for a node that is
re-discovered while its first translation is still in flight, since
completion is only recorded after the translation resolves. -/
theorem completed_never_reenqueued (s : ContentState) (b : Block)
    (h : s.completedElements.contains b.element = true) :
    scanStep s b = none ∧ addToQueue s b = s := by
  constructor
  · unfold scanStep
    rw [h]
    simp
  · unfold addToQueue
    rw [h]
    rfl

/-- Witness for `completed_never_reenqueued`. -/
theorem completed_never_reenqueued_witness :
    scanStep { startSession with completedElements := [3] } ⟨3, "Hi"⟩ = none
    ∧ addToQueue { startSession with completedElements := [3] } ⟨3, "Hi"⟩
        = { startSession with completedElements := [3] } :=
  completed_never_reenqueued _ _ (by decide)

/-- `elemDecision` with the two local bindings inlined. -/
def elemDecisionE (H : Int) (langSkip : String → Bool) (seen : List String)
    (el : Elem) : Option (VBlock × List String) :=
  if el.bottom * 2 < -H || el.top * 2 > 3 * H then none
  else if el.width = 0 || el.height = 0 then none
  else if el.inWrapper || el.hasPendingClass then none
  else if el.inTranslation then none
  else if el.completed then none
  else if jsTrim el.textContent = ""
      || (jsTrim el.textContent).length < MIN_TEXT_LENGTH then none
  else if (jsTrim el.textContent).length > MAX_TEXT_LENGTH then none
  else if seen.contains (jsTrim el.textContent) then none
  else if isPureSymbols (jsTrim el.textContent) then none
  else if langSkip (jsTrim el.textContent) then none
  else if getDirectTextContent el.childTexts ≠ ""
      && MIN_TEXT_LENGTH ≤ (getDirectTextContent el.childTexts).length then
    if findTextNodeExists el.childTexts (getDirectTextContent el.childTexts) then
      some (⟨el, getDirectTextContent el.childTexts, false⟩,
        seen ++ [jsTrim el.textContent])
    else none
  else if MIN_TEXT_LENGTH ≤ (jsTrim el.textContent).length then
    some (⟨el, jsTrim el.textContent, true⟩, seen ++ [jsTrim el.textContent])
  else none

theorem elemDecision_eq_e (H : Int) (langSkip : String → Bool)
    (seen : List String) (el : Elem) :
    elemDecision H langSkip seen el = elemDecisionE H langSkip seen el := rfl

theorem elemDecisionE_spec (H : Int) (langSkip : String → Bool) (seen : List String)
    (el : Elem) (vb : VBlock) (seen1 : List String)
    (hdec : elemDecisionE H langSkip seen el = some (vb, seen1)) :
    MIN_TEXT_LENGTH ≤ vb.text.length
    ∧ (vb.isAppend = true →
        vb.text.length ≤ MAX_TEXT_LENGTH ∧ isPureSymbols vb.text = false) := by
  unfold elemDecisionE at hdec
  by_cases h1 : (el.bottom * 2 < -H || el.top * 2 > 3 * H) = true
  · rw [if_pos h1] at hdec
    exact Option.noConfusion hdec
  rw [if_neg h1] at hdec
  by_cases h2 : (el.width = 0 || el.height = 0) = true
  · rw [if_pos h2] at hdec
    exact Option.noConfusion hdec
  rw [if_neg h2] at hdec
  by_cases h3 : (el.inWrapper || el.hasPendingClass) = true
  · rw [if_pos h3] at hdec
    exact Option.noConfusion hdec
  rw [if_neg h3] at hdec
  by_cases h4 : el.inTranslation = true
  · rw [if_pos h4] at hdec
    exact Option.noConfusion hdec
  rw [if_neg h4] at hdec
  by_cases h5 : el.completed = true
  · rw [if_pos h5] at hdec
    exact Option.noConfusion hdec
  rw [if_neg h5] at hdec
  by_cases h6 : (jsTrim el.textContent = ""
      || (jsTrim el.textContent).length < MIN_TEXT_LENGTH) = true
  · rw [if_pos h6] at hdec
    exact Option.noConfusion hdec
  rw [if_neg h6] at hdec
  by_cases h7 : (jsTrim el.textContent).length > MAX_TEXT_LENGTH
  · rw [if_pos h7] at hdec
    exact Option.noConfusion hdec
  rw [if_neg h7] at hdec
  by_cases h8 : seen.contains (jsTrim el.textContent) = true
  · rw [if_pos h8] at hdec
    exact Option.noConfusion hdec
  rw [if_neg h8] at hdec
  by_cases h9 : isPureSymbols (jsTrim el.textContent) = true
  · rw [if_pos h9] at hdec
    exact Option.noConfusion hdec
  rw [if_neg h9] at hdec
  by_cases h10 : langSkip (jsTrim el.textContent) = true
  · rw [if_pos h10] at hdec
    exact Option.noConfusion hdec
  rw [if_neg h10] at hdec
  by_cases h11 : (getDirectTextContent el.childTexts ≠ ""
      && MIN_TEXT_LENGTH ≤ (getDirectTextContent el.childTexts).length) = true
  · rw [if_pos h11] at hdec
    by_cases h12 : findTextNodeExists el.childTexts
        (getDirectTextContent el.childTexts) = true
    · rw [if_pos h12] at hdec
      injection hdec with hpair
      injection hpair with hv hs
      subst hv
      simp only [Bool.and_eq_true, decide_eq_true_eq] at h11
      refine ⟨h11.2, ?_⟩
      intro happ
      exact Bool.noConfusion happ
    · rw [if_neg h12] at hdec
      exact Option.noConfusion hdec
  · rw [if_neg h11] at hdec
    by_cases h13 : MIN_TEXT_LENGTH ≤ (jsTrim el.textContent).length
    · rw [if_pos h13] at hdec
      injection hdec with hpair
      injection hpair with hv hs
      subst hv
      refine ⟨h13, fun _ => ⟨Nat.le_of_not_lt h7, Bool.not_eq_true _ ▸ h9⟩⟩
    · rw [if_neg h13] at hdec
      exact Option.noConfusion hdec

theorem tnodeAccept_bounds (urlLike : String → Bool) (n : TNode)
    (h : tnodeAccept urlLike n = true) :
    MIN_TEXT_LENGTH ≤ (jsTrim n.content).length
    ∧ (jsTrim n.content).length ≤ MAX_TEXT_LENGTH
    ∧ isPureSymbols (jsTrim n.content) = false := by
  simp only [tnodeAccept, Bool.and_eq_true, decide_eq_true_eq,
    Bool.not_eq_true'] at h
  tauto

theorem collectTextNodes_bounds (urlLike langSkip : String → Bool) :
    ∀ (ns : List TNode) (blocks0 : List Block) (seen0 : List String),
      (∀ b ∈ blocks0, MIN_TEXT_LENGTH ≤ b.text.length
        ∧ b.text.length ≤ MAX_TEXT_LENGTH ∧ isPureSymbols b.text = false) →
      ∀ b ∈ (collectTextNodes urlLike langSkip ns blocks0 seen0).1,
        MIN_TEXT_LENGTH ≤ b.text.length ∧ b.text.length ≤ MAX_TEXT_LENGTH
          ∧ isPureSymbols b.text = false := by
  intro ns
  induction ns with
  | nil =>
    intro blocks0 seen0 hinit b hb
    exact hinit b hb
  | cons n rest ih =>
    intro blocks0 seen0 hinit b hb
    unfold collectTextNodes at hb
    by_cases ha : tnodeAccept urlLike n = true
    · rw [if_pos ha] at hb
      by_cases hseen : seen0.contains (jsTrim n.content) = true
      · rw [if_pos hseen] at hb
        exact ih blocks0 seen0 hinit b hb
      · rw [if_neg hseen] at hb
        by_cases hlang : langSkip (jsTrim n.content) = true
        · rw [if_pos hlang] at hb
          exact ih blocks0 seen0 hinit b hb
        · rw [if_neg hlang] at hb
          refine ih _ _ ?_ b hb
          intro b2 hb2
          rcases List.mem_append.mp hb2 with hmem | hmem
          · exact hinit b2 hmem
          · have hb2eq := List.mem_singleton.mp hmem
            subst hb2eq
            exact tnodeAccept_bounds urlLike n ha
    · rw [if_neg ha] at hb
      exact ih blocks0 seen0 hinit b hb

/-- The element refuting C9: the full nested text "123hello world" passes
every filter of `collectElementsWithText`, but the pushed replace-mode block
carries only the direct text "123", which is purely digits. -/
def pureDirectElem : Elem :=
  { element := 0, top := 0, bottom := 10, width := 5, height := 5
    inWrapper := false, hasPendingClass := false, inTranslation := false
    completed := false, textContent := "123hello world", childTexts := ["123"] }

/-- C9 (counterexample): the claim that every discovered block's text is
within the length bounds and not purely digits/punctuation/whitespace is
false — `collectElementsWithText` tests the purity regex only against the
element's full text, then pushes the direct text, so an element whose direct
text is "123" under a letter-bearing child yields a block with text "123". -/
theorem discovery_text_counterexample :
    ¬ (∀ (H : Int) (langSkip : String → Bool) (seen : List String) (el : Elem)
        (vb : VBlock) (seen1 : List String),
        elemDecision H langSkip seen el = some (vb, seen1) →
        (MIN_TEXT_LENGTH ≤ vb.text.length ∧ vb.text.length ≤ MAX_TEXT_LENGTH
          ∧ isPureSymbols vb.text = false)) := by
  intro h
  have h1 := (h 1000 (fun _ => false) [] pureDirectElem
    ⟨pureDirectElem, "123", false⟩ ["123hello world"] (by decide)).2.2
  exact absurd h1 (by decide)

/-- C9 (amended): every block produced by the full-page scan
(`collectTextNodes`) has trimmed text within [MIN_TEXT_LENGTH,
MAX_TEXT_LENGTH] that is not purely digits/punctuation/symbols/whitespace;
every block of the viewport sweep (`collectElementsWithText`) is guaranteed
the minimum length, and its append-mode blocks also satisfy the maximum and
the purity condition — but a replace-mode block carries the element's direct
text, for which only the minimum length is checked (the bounds and purity
were tested on the full nested text). -/
theorem discovery_text_bounds (urlLike langSkip : String → Bool) :
    (∀ (ns : List TNode) (seen0 : List String),
      ∀ b ∈ (collectTextNodes urlLike langSkip ns [] seen0).1,
        MIN_TEXT_LENGTH ≤ b.text.length ∧ b.text.length ≤ MAX_TEXT_LENGTH
          ∧ isPureSymbols b.text = false)
    ∧ (∀ (H : Int) (seen : List String) (el : Elem) (vb : VBlock)
        (seen1 : List String),
        elemDecision H langSkip seen el = some (vb, seen1) →
        MIN_TEXT_LENGTH ≤ vb.text.length
        ∧ (vb.isAppend = true →
            vb.text.length ≤ MAX_TEXT_LENGTH ∧ isPureSymbols vb.text = false)) := by
  constructor
  · intro ns seen0 b hb
    exact collectTextNodes_bounds urlLike langSkip ns [] seen0
      (fun b2 hb2 => absurd hb2 (List.not_mem_nil b2)) b hb
  · intro H seen el vb seen1 hdec
    rw [elemDecision_eq_e] at hdec
    exact elemDecisionE_spec H langSkip seen el vb seen1 hdec

/-- Witness for `discovery_text_bounds`: a one-node full-page scan and the
`pureDirectElem` viewport decision. -/
theorem discovery_text_bounds_witness :
    (MIN_TEXT_LENGTH ≤ ("Hello there" : String).length
      ∧ ("Hello there" : String).length ≤ MAX_TEXT_LENGTH
      ∧ isPureSymbols "Hello there" = false)
    ∧ MIN_TEXT_LENGTH ≤ ("123" : String).length := by
  constructor
  · have hn := (discovery_text_bounds (fun _ => false) (fun _ => false)).1
      [{ element := 0, hasParent := true, parentVisible := true, skipTag := false
         skipClass := false, inWrapper := false, content := " Hello there " }] []
      ⟨0, "Hello there"⟩ (by decide)
    simpa using hn
  · have hv := (discovery_text_bounds (fun _ => false) (fun _ => false)).2
      1000 [] pureDirectElem ⟨pureDirectElem, "123", false⟩ ["123hello world"]
      (by decide)
    simpa using hv.1

/-- C5: `withRetry` at the defaults used by `handleTranslate` (3 attempts,
2000ms base delay) makes at least one and at most three calls; it sleeps
exactly `2000 * 2^k` before the k-th retry (base delay doubling each
attempt); every non-final call failed with a rate-limited error — so any
failure of another category is rethrown to the caller immediately, with no
retry — and the returned result is exactly the outcome of the final call. -/
theorem retry_policy (oracle : Nat → Except String Unit) :
    1 ≤ (withRetry oracle 3 2000).calls
    ∧ (withRetry oracle 3 2000).calls ≤ 3
    ∧ (withRetry oracle 3 2000).delays
        = (List.range ((withRetry oracle 3 2000).calls - 1)).map
            (fun k => 2000 * 2 ^ k)
    ∧ (∀ i, i + 1 < (withRetry oracle 3 2000).calls →
        ∃ e, oracle i = .error e ∧ isRateLimitError e = true)
    ∧ (withRetry oracle 3 2000).result
        = oracle ((withRetry oracle 3 2000).calls - 1) := by
  rcases h0 : oracle 0 with e0 | v0
  · by_cases hr0 : isRateLimitError e0 = true
    · rcases h1 : oracle 1 with e1 | v1
      · by_cases hr1 : isRateLimitError e1 = true
        · rcases h2 : oracle 2 with e2 | v2
          · have ht : withRetry oracle 3 2000 = ⟨.error e2, 3, [2000, 4000]⟩ := by
              simp [withRetry, withRetryGo, h0, hr0, h1, hr1, h2]
            rw [ht]
            refine ⟨by norm_num, by norm_num, by simp [List.range_succ], ?_, ?_⟩
            · intro i hi
              have hi2 : i + 1 < 3 := hi
              have hz : i = 0 ∨ i = 1 := by omega
              rcases hz with hz | hz
              · subst hz
                exact ⟨e0, h0, hr0⟩
              · subst hz
                exact ⟨e1, h1, hr1⟩
            · exact h2.symm
          · have ht : withRetry oracle 3 2000 = ⟨.ok v2, 3, [2000, 4000]⟩ := by
              simp [withRetry, withRetryGo, h0, hr0, h1, hr1, h2]
            rw [ht]
            refine ⟨by norm_num, by norm_num, by simp [List.range_succ], ?_, ?_⟩
            · intro i hi
              have hi2 : i + 1 < 3 := hi
              have hz : i = 0 ∨ i = 1 := by omega
              rcases hz with hz | hz
              · subst hz
                exact ⟨e0, h0, hr0⟩
              · subst hz
                exact ⟨e1, h1, hr1⟩
            · exact h2.symm
        · have ht : withRetry oracle 3 2000 = ⟨.error e1, 2, [2000]⟩ := by
            simp [withRetry, withRetryGo, h0, hr0, h1, Bool.not_eq_true _ ▸ hr1]
          rw [ht]
          refine ⟨by norm_num, by norm_num, by simp [List.range_succ], ?_, ?_⟩
          · intro i hi
            have hi2 : i + 1 < 2 := hi
            have hz : i = 0 := by omega
            subst hz
            exact ⟨e0, h0, hr0⟩
          · exact h1.symm
      · have ht : withRetry oracle 3 2000 = ⟨.ok v1, 2, [2000]⟩ := by
          simp [withRetry, withRetryGo, h0, hr0, h1]
        rw [ht]
        refine ⟨by norm_num, by norm_num, by simp [List.range_succ], ?_, ?_⟩
        · intro i hi
          have hi2 : i + 1 < 2 := hi
          have hz : i = 0 := by omega
          subst hz
          exact ⟨e0, h0, hr0⟩
        · exact h1.symm
    · have ht : withRetry oracle 3 2000 = ⟨.error e0, 1, []⟩ := by
        simp [withRetry, withRetryGo, h0, Bool.not_eq_true _ ▸ hr0]
      rw [ht]
      refine ⟨by norm_num, by norm_num, by simp, ?_, ?_⟩
      · intro i hi
        have hi2 : i + 1 < 1 := hi
        omega
      · exact h0.symm
  · have ht : withRetry oracle 3 2000 = ⟨.ok v0, 1, []⟩ := by
      simp [withRetry, withRetryGo, h0]
    rw [ht]
    refine ⟨by norm_num, by norm_num, by simp, ?_, ?_⟩
    · intro i hi
      have hi2 : i + 1 < 1 := hi
      omega
    · exact h0.symm

/-- Witness for `retry_policy`: an oracle that is rate-limited once and then
succeeds — one retry with a 2000ms backoff, final result taken from the
second call. -/
theorem retry_policy_witness :
    1 ≤ (withRetry
          (fun i => if i = 0 then .error "rate limit" else .ok ()) 3 2000).calls
    ∧ (withRetry
          (fun i => if i = 0 then .error "rate limit" else .ok ()) 3 2000).calls ≤ 3
    ∧ (withRetry
          (fun i => if i = 0 then .error "rate limit" else .ok ()) 3 2000).delays
        = (List.range ((withRetry
            (fun i => if i = 0 then .error "rate limit" else .ok ()) 3
            2000).calls - 1)).map (fun k => 2000 * 2 ^ k)
    ∧ (∀ i, i + 1 < (withRetry
          (fun i => if i = 0 then .error "rate limit" else .ok ()) 3 2000).calls →
        ∃ e, (fun i => if i = 0 then (.error "rate limit" : Except String Unit)
            else .ok ()) i = .error e ∧ isRateLimitError e = true)
    ∧ (withRetry
          (fun i => if i = 0 then .error "rate limit" else .ok ()) 3 2000).result
        = (fun i => if i = 0 then (.error "rate limit" : Except String Unit)
            else .ok ())
          ((withRetry
            (fun i => if i = 0 then .error "rate limit" else .ok ()) 3
            2000).calls - 1) :=
  retry_policy (fun i => if i = 0 then .error "rate limit" else .ok ())
